import Mathlib

/-!
Verification development for the gcp-logger repository.

The repository contains two parallel implementations of the "large log"
overflow pipeline:

* `gcp_logger/custom_logging_handler.py` (`CustomCloudLoggingHandler`), with
  `emit`, `is_large_log`, `handle_large_log`, `generate_blob_name` and
  `truncate_log_message`;
* the legacy `superlogs/__init__.py` (`SuperLogs`), with
  `google_cloud_log_sink`, `google_cloud_log_truncate` and
  `save_large_log_to_gcs`.

Strings are modelled as `List Char` (a Lean `Char` is a Unicode scalar value,
exactly a Python `str` character).  Byte strings are `List Nat`.  The three
byte-level primitives the Python code uses are modelled faithfully:
`str.encode("utf-8")` as `encodeUtf8`, `bytes[:n]` (with Python's negative
slice-index semantics) as `pySliceTo`, and
`bytes.decode("utf-8", errors="ignore")` as `decodeUtf8Ignore`.
-/

/-- UTF-8 encoding of a single Unicode scalar value, as a list of byte
values.  Mirrors what Python's `str.encode("utf-8")` produces per character. -/
def encodeChar (c : Char) : List Nat :=
  let v := c.toNat
  if v < 0x80 then [v]
  else if v < 0x800 then [0xC0 + v / 64, 0x80 + v % 64]
  else if v < 0x10000 then [0xE0 + v / 4096, 0x80 + v / 64 % 64, 0x80 + v % 64]
  else [0xF0 + v / 262144, 0x80 + v / 4096 % 64, 0x80 + v / 64 % 64, 0x80 + v % 64]

/-- UTF-8 encoding of a string: `message.encode("utf-8")`. -/
def encodeUtf8 : List Char → List Nat
  | [] => []
  | c :: cs => encodeChar c ++ encodeUtf8 cs

/-- `len(message.encode("utf-8"))`: the UTF-8 byte length of a string. -/
def utf8ByteLen (s : List Char) : Nat :=
  (encodeUtf8 s).length

/-- Is `b` a UTF-8 continuation byte (`0x80 ≤ b < 0xC0`)? -/
def contB (b : Nat) : Bool :=
  decide (0x80 ≤ b ∧ b < 0xC0)

/-- `bytes.decode("utf-8", errors="ignore")`: a total UTF-8 decoder that
skips over ill-formed byte sequences instead of raising.  It rejects
overlong encodings (lead bytes `0xC0`/`0xC1`, 3-byte values below `0x800`,
4-byte values below `0x10000`), surrogate code points and values above
`0x10FFFF`, exactly as CPython's strict well-formedness check does; the
`ignore` handler then drops the offending bytes. -/
def decodeUtf8Ignore : List Nat → List Char
  | [] => []
  | b0 :: l =>
    if b0 < 0x80 then Char.ofNat b0 :: decodeUtf8Ignore l
    else if b0 < 0xC2 then decodeUtf8Ignore l
    else if b0 < 0xE0 then
      match l.head? with
      | some b1 =>
        if contB b1 then Char.ofNat ((b0 - 0xC0) * 64 + (b1 - 0x80)) :: decodeUtf8Ignore (l.drop 1)
        else decodeUtf8Ignore l
      | none => []
    else if b0 < 0xF0 then
      match l.get? 0, l.get? 1 with
      | some b1, some b2 =>
        if contB b1 && contB b2
            && decide (0x800 ≤ (b0 - 0xE0) * 4096 + (b1 - 0x80) * 64 + (b2 - 0x80))
            && !decide (0xD800 ≤ (b0 - 0xE0) * 4096 + (b1 - 0x80) * 64 + (b2 - 0x80)
                        ∧ (b0 - 0xE0) * 4096 + (b1 - 0x80) * 64 + (b2 - 0x80) < 0xE000) then
          Char.ofNat ((b0 - 0xE0) * 4096 + (b1 - 0x80) * 64 + (b2 - 0x80))
            :: decodeUtf8Ignore (l.drop 2)
        else decodeUtf8Ignore l
      | _, _ => decodeUtf8Ignore l
    else
      match l.get? 0, l.get? 1, l.get? 2 with
      | some b1, some b2, some b3 =>
        if contB b1 && contB b2 && contB b3
            && decide (0x10000 ≤ (b0 - 0xF0) * 262144 + (b1 - 0x80) * 4096
                        + (b2 - 0x80) * 64 + (b3 - 0x80))
            && decide ((b0 - 0xF0) * 262144 + (b1 - 0x80) * 4096
                        + (b2 - 0x80) * 64 + (b3 - 0x80) < 0x110000) then
          Char.ofNat ((b0 - 0xF0) * 262144 + (b1 - 0x80) * 4096 + (b2 - 0x80) * 64 + (b3 - 0x80))
            :: decodeUtf8Ignore (l.drop 3)
        else decodeUtf8Ignore l
      | _, _, _ => decodeUtf8Ignore l
termination_by l => l.length
decreasing_by all_goals simp_wf <;> omega

/-- The effective stop index of Python's `l[:n]` on a list of length `len`:
a negative `n` counts from the end, and out-of-range indices are clamped. -/
def pyStop (len : Nat) (n : Int) : Nat :=
  if n < 0 then len - n.natAbs else n.toNat

/-- Python's `l[:n]` for a possibly negative stop index `n`. -/
def pySliceTo (l : List α) (n : Int) : List α :=
  l.take (pyStop l.length n)

example : encodeChar 'A' = [65] := by decide
example : encodeChar 'é' = [0xC3, 0xA9] := by decide
example : encodeChar '€' = [0xE2, 0x82, 0xAC] := by decide
example : decodeUtf8Ignore [0xE2, 0x82, 0xAC] = ['€'] := by
  simp [decodeUtf8Ignore, contB]
example : decodeUtf8Ignore [65, 0xE2, 0x82] = ['A'] := by
  simp [decodeUtf8Ignore, contB]
example : pySliceTo [1, 2, 3, 4] (-2) = [1, 2] := by decide
example : pySliceTo [1, 2, 3, 4] (-9) = [] := by decide
example : pySliceTo [1, 2, 3, 4] 3 = [1, 2, 3] := by decide

lemma char_toNat_valid (c : Char) :
    c.toNat < 0xD800 ∨ (0xDFFF < c.toNat ∧ c.toNat < 0x110000) := by
  have h := c.valid
  cases h with
  | inl h => exact Or.inl h
  | inr h => exact Or.inr ⟨h.1, h.2⟩

lemma encodeChar_ne_nil (c : Char) : encodeChar c ≠ [] := by
  unfold encodeChar
  dsimp only
  split
  · simp
  · split
    · simp
    · split <;> simp

lemma utf8ByteLen_cons (c : Char) (s : List Char) :
    utf8ByteLen (c :: s) = (encodeChar c).length + utf8ByteLen s := by
  simp [utf8ByteLen, encodeUtf8]

lemma encodeUtf8_append (s t : List Char) :
    encodeUtf8 (s ++ t) = encodeUtf8 s ++ encodeUtf8 t := by
  induction s with
  | nil => simp [encodeUtf8]
  | cons c cs ih => simp [encodeUtf8, ih]

lemma utf8ByteLen_append (s t : List Char) :
    utf8ByteLen (s ++ t) = utf8ByteLen s + utf8ByteLen t := by
  simp [utf8ByteLen, encodeUtf8_append]

/-- Skipping: a run of bytes that are all in the "ignored" range (in
particular stray continuation bytes) decodes to nothing. -/
lemma decodeUtf8Ignore_all_cont (l : List Nat) (h : ∀ b ∈ l, 0x80 ≤ b ∧ b < 0xC2) :
    decodeUtf8Ignore l = [] := by
  induction l with
  | nil => simp [decodeUtf8Ignore]
  | cons b0 l ih =>
    have hb := h b0 (by simp)
    have hl : ∀ b ∈ l, 0x80 ≤ b ∧ b < 0xC2 := fun b hbmem => h b (by simp [hbmem])
    simp only [decodeUtf8Ignore]
    rw [if_neg (by omega), if_pos (by omega)]
    exact ih hl

lemma decodeUtf8Ignore_one (b0 : Nat) (rest : List Nat) (h : b0 < 0x80) :
    decodeUtf8Ignore (b0 :: rest) = Char.ofNat b0 :: decodeUtf8Ignore rest := by
  simp only [decodeUtf8Ignore]
  rw [if_pos (by omega)]

lemma decodeUtf8Ignore_two (b0 b1 : Nat) (rest : List Nat)
    (h0 : 0xC2 ≤ b0) (h1 : b0 < 0xE0) (h2 : 0x80 ≤ b1) (h3 : b1 < 0xC0) :
    decodeUtf8Ignore (b0 :: b1 :: rest)
      = Char.ofNat ((b0 - 0xC0) * 64 + (b1 - 0x80)) :: decodeUtf8Ignore rest := by
  have hb : contB b1 = true := by simp [contB]; omega
  simp only [decodeUtf8Ignore]
  rw [if_neg (by omega), if_neg (by omega), if_pos (by omega)]
  simp [hb]

lemma decodeUtf8Ignore_three (b0 b1 b2 : Nat) (rest : List Nat)
    (h0 : 0xE0 ≤ b0) (h1 : b0 < 0xF0)
    (h2 : 0x80 ≤ b1) (h3 : b1 < 0xC0) (h4 : 0x80 ≤ b2) (h5 : b2 < 0xC0)
    (h6 : 0x800 ≤ (b0 - 0xE0) * 4096 + (b1 - 0x80) * 64 + (b2 - 0x80))
    (h7 : ¬(0xD800 ≤ (b0 - 0xE0) * 4096 + (b1 - 0x80) * 64 + (b2 - 0x80)
            ∧ (b0 - 0xE0) * 4096 + (b1 - 0x80) * 64 + (b2 - 0x80) < 0xE000)) :
    decodeUtf8Ignore (b0 :: b1 :: b2 :: rest)
      = Char.ofNat ((b0 - 0xE0) * 4096 + (b1 - 0x80) * 64 + (b2 - 0x80))
          :: decodeUtf8Ignore rest := by
  simp only [decodeUtf8Ignore]
  rw [if_neg (by omega), if_neg (by omega), if_neg (by omega), if_pos (by omega)]
  simp only [List.get?_cons_zero, List.get?_cons_succ]
  rw [if_pos]
  · simp
  · simp only [contB, Bool.and_eq_true, Bool.not_eq_true', decide_eq_true_eq,
      decide_eq_false_iff_not]
    omega

lemma decodeUtf8Ignore_four (b0 b1 b2 b3 : Nat) (rest : List Nat)
    (h0 : 0xF0 ≤ b0)
    (h2 : 0x80 ≤ b1) (h3 : b1 < 0xC0) (h4 : 0x80 ≤ b2) (h5 : b2 < 0xC0)
    (h6 : 0x80 ≤ b3) (h7 : b3 < 0xC0)
    (h8 : 0x10000 ≤ (b0 - 0xF0) * 262144 + (b1 - 0x80) * 4096 + (b2 - 0x80) * 64 + (b3 - 0x80))
    (h9 : (b0 - 0xF0) * 262144 + (b1 - 0x80) * 4096 + (b2 - 0x80) * 64 + (b3 - 0x80) < 0x110000) :
    decodeUtf8Ignore (b0 :: b1 :: b2 :: b3 :: rest)
      = Char.ofNat ((b0 - 0xF0) * 262144 + (b1 - 0x80) * 4096 + (b2 - 0x80) * 64 + (b3 - 0x80))
          :: decodeUtf8Ignore rest := by
  simp only [decodeUtf8Ignore]
  rw [if_neg (by omega), if_neg (by omega), if_neg (by omega), if_neg (by omega)]
  simp only [List.get?_cons_zero, List.get?_cons_succ]
  rw [if_pos]
  · simp
  · simp only [contB, Bool.and_eq_true, decide_eq_true_eq]
    exact ⟨⟨⟨⟨⟨by omega, by omega⟩, by omega⟩, by omega⟩, by omega⟩, by omega⟩

/-- Decoding a correctly encoded character followed by anything yields that
character followed by the decoding of the remainder. -/
lemma decodeUtf8Ignore_encodeChar (c : Char) (rest : List Nat) :
    decodeUtf8Ignore (encodeChar c ++ rest) = c :: decodeUtf8Ignore rest := by
  have hval := char_toNat_valid c
  unfold encodeChar
  dsimp only
  by_cases h1 : c.toNat < 0x80
  · rw [if_pos h1]
    simp only [List.cons_append, List.nil_append]
    rw [decodeUtf8Ignore_one _ _ h1, Char.ofNat_toNat]
  · rw [if_neg h1]
    push_neg at h1
    by_cases h2 : c.toNat < 0x800
    · rw [if_pos h2]
      simp only [List.cons_append, List.nil_append]
      rw [decodeUtf8Ignore_two _ _ _ (by omega) (by omega) (by omega) (by omega)]
      have hv : (0xC0 + c.toNat / 64 - 0xC0) * 64 + (0x80 + c.toNat % 64 - 0x80)
          = c.toNat := by omega
      rw [hv, Char.ofNat_toNat]
    · rw [if_neg h2]
      push_neg at h2
      by_cases h3 : c.toNat < 0x10000
      · rw [if_pos h3]
        simp only [List.cons_append, List.nil_append]
        have hv : (0xE0 + c.toNat / 4096 - 0xE0) * 4096
            + (0x80 + c.toNat / 64 % 64 - 0x80) * 64 + (0x80 + c.toNat % 64 - 0x80)
            = c.toNat := by omega
        rw [decodeUtf8Ignore_three _ _ _ _ (by omega) (by omega) (by omega) (by omega)
          (by omega) (by omega) (by omega) (by rw [hv]; omega)]
        rw [hv, Char.ofNat_toNat]
      · rw [if_neg h3]
        push_neg at h3
        have h4 : c.toNat < 0x110000 := by omega
        simp only [List.cons_append, List.nil_append]
        have hv : (0xF0 + c.toNat / 262144 - 0xF0) * 262144
            + (0x80 + c.toNat / 4096 % 64 - 0x80) * 4096
            + (0x80 + c.toNat / 64 % 64 - 0x80) * 64 + (0x80 + c.toNat % 64 - 0x80)
            = c.toNat := by omega
        rw [decodeUtf8Ignore_four _ _ _ _ _ (by omega) (by omega) (by omega) (by omega)
          (by omega) (by omega) (by omega) (by rw [hv]; omega) (by rw [hv]; omega)]
        rw [hv, Char.ofNat_toNat]

set_option maxHeartbeats 1000000 in
/-- A strict prefix of a single encoded character decodes to nothing: the
`ignore` error handler drops an incomplete trailing sequence. -/
lemma decodeUtf8Ignore_take_encodeChar (c : Char) (n : Nat)
    (h : n < (encodeChar c).length) :
    decodeUtf8Ignore ((encodeChar c).take n) = [] := by
  have hval := char_toNat_valid c
  unfold encodeChar at h ⊢
  dsimp only at h ⊢
  by_cases h1 : c.toNat < 0x80
  · rw [if_pos h1] at h ⊢
    simp only [List.length_cons, List.length_nil] at h
    interval_cases n
    simp [decodeUtf8Ignore]
  · rw [if_neg h1] at h ⊢
    push_neg at h1
    by_cases h2 : c.toNat < 0x800
    · rw [if_pos h2] at h ⊢
      simp only [List.length_cons, List.length_nil] at h
      interval_cases n
      · simp [decodeUtf8Ignore]
      · simp only [List.take_succ_cons, List.take_zero]
        simp only [decodeUtf8Ignore]
        rw [if_neg (by omega), if_neg (by omega), if_pos (by omega)]
        simp
    · rw [if_neg h2] at h ⊢
      push_neg at h2
      by_cases h3 : c.toNat < 0x10000
      · rw [if_pos h3] at h ⊢
        simp only [List.length_cons, List.length_nil] at h
        interval_cases n
        · simp [decodeUtf8Ignore]
        · simp only [List.take_succ_cons, List.take_zero]
          simp only [decodeUtf8Ignore]
          rw [if_neg (by omega), if_neg (by omega), if_neg (by omega), if_pos (by omega)]
          simp [decodeUtf8Ignore]
        · simp only [List.take_succ_cons, List.take_zero]
          simp only [decodeUtf8Ignore]
          rw [if_neg (by omega), if_neg (by omega), if_neg (by omega), if_pos (by omega)]
          simp only [List.get?_cons_zero, List.get?_cons_succ, List.get?_nil]
          split_ifs <;> first | rfl | (exfalso; omega)
      · rw [if_neg h3] at h ⊢
        push_neg at h3
        simp only [List.length_cons, List.length_nil] at h
        interval_cases n
        · simp [decodeUtf8Ignore]
        · simp only [List.take_succ_cons, List.take_zero]
          simp only [decodeUtf8Ignore]
          rw [if_neg (by omega), if_neg (by omega), if_neg (by omega), if_neg (by omega)]
          simp [decodeUtf8Ignore]
        · simp only [List.take_succ_cons, List.take_zero]
          simp only [decodeUtf8Ignore]
          rw [if_neg (by omega), if_neg (by omega), if_neg (by omega), if_neg (by omega)]
          simp only [List.get?_cons_zero, List.get?_cons_succ, List.get?_nil]
          split_ifs <;> first | rfl | (exfalso; omega)
        · simp only [List.take_succ_cons, List.take_zero]
          simp only [decodeUtf8Ignore]
          rw [if_neg (by omega), if_neg (by omega), if_neg (by omega), if_neg (by omega)]
          simp only [List.get?_cons_zero, List.get?_cons_succ, List.get?_nil]
          split_ifs <;> first | rfl | (exfalso; omega)

/-- The key truncation property: chopping the UTF-8 encoding of a string at
an arbitrary byte budget `n` and decoding with `errors="ignore"` yields a
whole-character prefix of the original string whose own encoding fits in
`n` bytes.  No multi-byte character is ever split, and decoding never
fails. -/
lemma decodeUtf8Ignore_take_encodeUtf8 (s : List Char) (n : Nat) :
    ∃ k, k ≤ s.length ∧ decodeUtf8Ignore ((encodeUtf8 s).take n) = s.take k
      ∧ utf8ByteLen (s.take k) ≤ n := by
  induction s generalizing n with
  | nil => exact ⟨0, by simp, by simp [encodeUtf8, decodeUtf8Ignore],
      by simp [utf8ByteLen, encodeUtf8]⟩
  | cons c cs ih =>
    by_cases h : n < (encodeChar c).length
    · refine ⟨0, by simp, ?_, by simp [utf8ByteLen, encodeUtf8]⟩
      rw [show encodeUtf8 (c :: cs) = encodeChar c ++ encodeUtf8 cs from rfl]
      rw [List.take_append_eq_append_take]
      have hz : n - (encodeChar c).length = 0 := by omega
      rw [hz, List.take_zero, List.append_nil]
      rw [decodeUtf8Ignore_take_encodeChar c n h]
      simp
    · push_neg at h
      obtain ⟨k, hk, hdec, hlen⟩ := ih (n - (encodeChar c).length)
      refine ⟨k + 1, by simpa using hk, ?_, ?_⟩
      · rw [show encodeUtf8 (c :: cs) = encodeChar c ++ encodeUtf8 cs from rfl]
        rw [List.take_append_eq_append_take]
        rw [List.take_of_length_le h]
        rw [decodeUtf8Ignore_encodeChar, hdec]
        simp
      · rw [List.take_succ_cons, utf8ByteLen_cons]
        omega

/-! ## The model of the program

Definitions below are translated from `gcp_logger/custom_logging_handler.py`,
`gcp_logger/async_uploader.py`, `gcp_logger/logger.py` and
`superlogs/__init__.py`.  Effects (GCS uploads, the Cloud Logging transport,
clock reads) are passed in as explicit arguments: an upload that can fail is
an `Except String` value, and `time.time()` readings are a `timestamp`
argument. -/

/-- `CustomCloudLoggingHandler.MAX_LOG_SIZE = 255 * 1024`. -/
def MAX_LOG_SIZE : Nat := 255 * 1024

/-- `SuperLogs.LOGGING_MAX_SIZE = 255 * 1024`. -/
def LOGGING_MAX_SIZE : Nat := 255 * 1024

/-- Python truthiness of an optional string (`None` and `""` are falsy). -/
def pyTruthy : Option (List Char) → Bool
  | some u => !u.isEmpty
  | none => false

/-- `SuperLogs.google_cloud_log_truncate(log_message, gsutil_uri)`
(superlogs/__init__.py lines 72-89): byte-budget truncation.  The byte
lengths of the fixed truncation notice and of the reference text (template
minus the placeholder plus the URI) are subtracted from the limit, the
message's UTF-8 encoding is sliced to that many bytes, and the slice is
decoded with `errors="ignore"`.  The notice — and, when a URI is present,
the reference text — are then appended. -/
def google_cloud_log_truncate (log_message : List Char) (gsutil_uri : Option (List Char)) :
    List Char :=
  let truncation_notice := "... [truncated]".toList
  let additional_text_template :=
    "\nMessage has been truncated, please check: \x7bgsutil_uri\x7d for full log message".toList
  let truncation_notice_length := utf8ByteLen truncation_notice
  let gsutil_uri_length := if pyTruthy gsutil_uri then utf8ByteLen (gsutil_uri.getD []) else 0
  let additional_text_length :=
    utf8ByteLen additional_text_template - ("\x7bgsutil_uri\x7d".toList).length + gsutil_uri_length
  let max_message_length : Int :=
    (LOGGING_MAX_SIZE : Int) - truncation_notice_length - additional_text_length
  let truncated_message := decodeUtf8Ignore (pySliceTo (encodeUtf8 log_message) max_message_length)
  if pyTruthy gsutil_uri then
    truncated_message ++ truncation_notice
      ++ "\nMessage has been truncated, please check: ".toList ++ gsutil_uri.getD []
      ++ " for full log message".toList
  else
    truncated_message ++ truncation_notice

/-- `CustomCloudLoggingHandler.truncate_log_message(message, gcs_uri)`
(custom_logging_handler.py lines 202-217).  Note that this variant measures
the notice, the reference text and the message slice in *characters*
(Python `len` and `str` slicing), not in UTF-8 bytes. -/
def truncate_log_message (message : List Char) (gcs_uri : List Char) : List Char :=
  let truncation_notice := "... [truncated]".toList
  let additional_text := "\nMessage has been truncated. Full log at: ".toList ++ gcs_uri
  let max_message_length : Int :=
    (MAX_LOG_SIZE : Int) - truncation_notice.length - additional_text.length
  pySliceTo message max_message_length ++ truncation_notice ++ additional_text

/-- `CustomCloudLoggingHandler.is_large_log(record)` (lines 135-146): a
strict `>` comparison of the formatted message's UTF-8 byte length against
`MAX_LOG_SIZE`. -/
def is_large_log (formatted : List Char) : Bool :=
  decide (MAX_LOG_SIZE < utf8ByteLen formatted)

/-- `CustomCloudLoggingHandler.handle_large_log(record)` (lines 148-168),
after the upload was scheduled and returned `gcs_uri`: truncate only when
the URI is truthy, else leave the record untouched. -/
def handle_large_log (message : List Char) (gcs_uri : List Char) : List Char :=
  if gcs_uri.isEmpty then message else truncate_log_message message gcs_uri

/-- `CustomCloudLoggingHandler.generate_blob_name(labels)` (lines 186-200):
`parts = [str(timestamp)] + [str(labels.get(key, "")) for key in
["instance_id", "trace_id", "span_id"]]` joined with `"_"` after
`filter(bool, parts)`, wrapped as `logs/<...>.log`.  `filter(bool, ...)`
drops only *empty* strings. -/
def generate_blob_name (timestamp : Nat)
    (instance_id trace_id span_id : Option (List Char)) : List Char :=
  let parts := [Nat.toDigits 10 timestamp,
    instance_id.getD [], trace_id.getD [], span_id.getD []]
  "logs/".toList ++ List.intercalate ['_'] (parts.filter (fun p => !p.isEmpty)) ++ ".log".toList

/-- The blob name built inside `SuperLogs.save_large_log_to_gcs`
(superlogs/__init__.py lines 96-106): `parts` starts as
`[timestamp, process_id, thread_id]` and `instance_id`, `trace_id`,
`span_id` are inserted at positions 1, 2, 3 only when they differ from the
`"-"` placeholder. -/
def superlogs_blob_name (timestamp : Nat)
    (instance_id trace_id span_id process_id thread_id : List Char) : List Char :=
  let parts0 := [Nat.toDigits 10 timestamp, process_id, thread_id]
  let parts1 := if instance_id ≠ ['-'] then parts0.insertIdx 1 instance_id else parts0
  let parts2 := if trace_id ≠ ['-'] then parts1.insertIdx 2 trace_id else parts1
  let parts3 := if span_id ≠ ['-'] then parts2.insertIdx 3 span_id else parts2
  "logs/".toList ++ List.intercalate ['_'] parts3 ++ ".log".toList

/-- `SuperLogs.save_large_log_to_gcs(...)` (lines 91-114): on upload success
return the `gs://<bucket>/<blob>` URI, on any exception catch it, log it and
return `None`. -/
def save_large_log_to_gcs (default_bucket : List Char) (timestamp : Nat)
    (instance_id trace_id span_id process_id thread_id : List Char)
    (upload : Except String Unit) : Option (List Char) :=
  let blob_name := superlogs_blob_name timestamp instance_id trace_id span_id process_id thread_id
  match upload with
  | Except.ok _ => some ("gs://".toList ++ default_bucket ++ "/".toList ++ blob_name)
  | Except.error _ => none

/-- The message field emitted by `SuperLogs.google_cloud_log_sink`
(lines 116-141): if the formatted message is strictly over the limit, upload
and truncate with whatever URI (or `None`) the upload produced; otherwise
pass the message through unchanged. -/
def google_cloud_log_sink (log_message : List Char) (default_bucket : List Char)
    (timestamp : Nat) (instance_id trace_id span_id process_id thread_id : List Char)
    (upload : Except String Unit) : List Char :=
  if LOGGING_MAX_SIZE < utf8ByteLen log_message then
    google_cloud_log_truncate log_message
      (save_large_log_to_gcs default_bucket timestamp
        instance_id trace_id span_id process_id thread_id upload)
  else
    log_message

/-- `CustomCloudLoggingHandler.emit(record)` (lines 53-87).  The whole body
runs inside `try: ... except Exception: internal_debug(...)`.  Faults of the
individual steps (`add_custom_attributes`, the upload scheduling inside
`handle_large_log`, `format_log_message`, `transport.send`) are injected as
booleans.  The result is `Except.ok (some sent)` when a message was handed
to the transport, and `Except.ok none` when a fault was swallowed; a
propagated exception would be `Except.error`. -/
def emit (formatted : List Char) (hasUploader : Bool) (gcs_uri : List Char)
    (fAttrs fUpload fFormat fSend : Bool) : Except String (Option (List Char)) :=
  let body : Except String (List Char) :=
    if fAttrs then Except.error ("add_custom_attributes raised")
    else if is_large_log formatted && hasUploader && fUpload then
      Except.error ("upload_large_log_to_gcs raised")
    else
      let record :=
        if is_large_log formatted && hasUploader then handle_large_log formatted gcs_uri
        else formatted
      if fFormat then Except.error ("format_log_message raised")
      else if fSend then Except.error ("transport.send raised")
      else Except.ok record
  match body with
  | Except.ok m => Except.ok (some m)
  | Except.error _ => Except.ok none

/-- State of an `AsyncUploader` (async_uploader.py): its event loop (which
the code stops but never closes), its daemon thread and its lazily created
storage client. -/
structure UploaderState where
  loopClosed : Bool
  loopRunning : Bool
  threadAlive : Bool
  hasStorageClient : Bool
deriving DecidableEq

/-- `AsyncUploader.shutdown` (async_uploader.py lines 97-111).  The
storage-client close (`future.result(timeout=5)`) may fail — e.g. time out
once the loop has already stopped — but its exception is caught and logged
(`closeResult` is therefore only observed, never propagated).
`loop.call_soon_threadsafe` raises `RuntimeError` only on a *closed* loop,
which this class never produces, and `Thread.join` on a finished thread
returns immediately. -/
def AsyncUploader_shutdown (s : UploaderState) (closeResult : Except String Unit) :
    Except String UploaderState :=
  let _ := if s.hasStorageClient then closeResult else Except.ok ()
  if s.loopClosed then Except.error ("RuntimeError: Event loop is closed")
  else Except.ok { s with loopRunning := false, threadAlive := false }

/-- A `GCPLogger` object (logger.py): its Python identity (`objId`), the
five constructor-configured fields and the `_initialized` flag. -/
structure GCPLoggerState where
  objId : Nat
  logger_name : List Char
  logger_level : Int
  default_bucket : Option (List Char)
  is_localdev : Bool
  debug_logs : Bool
  initializedFlag : Bool
deriving DecidableEq

/-- `GCPLogger.__new__` (logger.py lines 25-31): reuse `cls._instance` when
set, otherwise allocate a fresh object with `_initialized = False`. -/
def gcpLoggerNew (instanceVar : Option GCPLoggerState) (freshId : Nat) : GCPLoggerState :=
  match instanceVar with
  | some inst => inst
  | none =>
    { objId := freshId
      logger_name := []
      logger_level := 0
      default_bucket := none
      is_localdev := false
      debug_logs := false
      initializedFlag := false }

/-- `GCPLogger.__init__` (logger.py lines 33-63): `if self._initialized:
return` guards the whole body; otherwise all configuration fields are
assigned from the arguments and `_lazy_init`/`_initialize` sets
`_initialized = True`. -/
def gcpLoggerInit (self : GCPLoggerState) (logger_name : List Char) (logger_level : Int)
    (default_bucket : Option (List Char)) (is_localdev debug_logs : Bool) : GCPLoggerState :=
  if self.initializedFlag then self
  else
    { self with
      logger_name := logger_name
      logger_level := logger_level
      default_bucket := default_bucket
      is_localdev := is_localdev
      debug_logs := debug_logs
      initializedFlag := true }

/-- A call `GCPLogger(...)`: Python runs `__new__` then `__init__` on the
returned object; the class attribute `_instance` ends up pointing at that
object.  Returns the object and the new value of `cls._instance`. -/
def gcpLoggerConstruct (instanceVar : Option GCPLoggerState) (freshId : Nat)
    (logger_name : List Char) (logger_level : Int) (default_bucket : Option (List Char))
    (is_localdev debug_logs : Bool) : GCPLoggerState × Option GCPLoggerState :=
  let obj := gcpLoggerNew instanceVar freshId
  let obj := gcpLoggerInit obj logger_name logger_level default_bucket is_localdev debug_logs
  (obj, some obj)

/-! ## Helper lemmas -/

lemma toDigitsCore_length_mono (b : Nat) :
    ∀ (f n : Nat) (ds : List Char), ds.length ≤ (Nat.toDigitsCore b f n ds).length := by
  intro f
  induction f with
  | zero => intro n ds; simp [Nat.toDigitsCore]
  | succ f ih =>
    intro n ds
    simp only [Nat.toDigitsCore]
    split
    · simp
    · exact le_trans (by simp) (ih (n / b) (Nat.digitChar (n % b) :: ds))

lemma toDigits_ne_nil (b n : Nat) : Nat.toDigits b n ≠ [] := by
  unfold Nat.toDigits
  simp only [Nat.toDigitsCore]
  split
  · simp
  · intro hcontra
    have hle := toDigitsCore_length_mono b n (n / b) [Nat.digitChar (n % b)]
    rw [hcontra] at hle
    simp at hle

/-- The `_`-prefixed fragment a non-empty part contributes to a joined blob
name; an empty part contributes nothing. -/
def optPart (x : List Char) : List Char :=
  if x.isEmpty then [] else '_' :: x

lemma optPart_inj {x y : List Char} (h : optPart x = optPart y) : x = y := by
  unfold optPart at h
  by_cases hx : x.isEmpty = true <;> by_cases hy : y.isEmpty = true <;>
    simp [hx, hy] at h <;> simp_all [List.isEmpty_iff]

/-- Closed form of `generate_blob_name`: the key is
`logs/<timestamp>` followed by a `_`-fragment for each non-empty field, and
`.log`. -/
lemma generate_blob_name_shape (ts : Nat) (i t sp : Option (List Char)) :
    generate_blob_name ts i t sp
      = "logs/".toList ++ Nat.toDigits 10 ts
          ++ (optPart (i.getD []) ++ (optPart (t.getD []) ++ (optPart (sp.getD [])
          ++ ".log".toList))) := by
  have hd : (Nat.toDigits 10 ts).isEmpty = false := by
    simp [List.isEmpty_iff, toDigits_ne_nil]
  by_cases h1 : (i.getD []).isEmpty = true <;> by_cases h2 : (t.getD []).isEmpty = true <;>
    by_cases h3 : (sp.getD []).isEmpty = true <;>
    simp [generate_blob_name, optPart, h1, h2, h3, hd, List.intercalate, List.intersperse]

lemma pySliceTo_nonneg {α : Type} (l : List α) (m : Int) (h : 0 ≤ m) :
    pySliceTo l m = l.take m.toNat := by
  unfold pySliceTo pyStop
  rw [if_neg (by omega)]

lemma pyStop_nonneg (len : Nat) (m : Int) (h : 0 ≤ m) : pyStop len m = m.toNat := by
  unfold pyStop
  rw [if_neg (by omega)]

lemma utf8ByteLen_decode_take (s : List Char) (n : Nat) :
    utf8ByteLen (decodeUtf8Ignore ((encodeUtf8 s).take n)) ≤ n := by
  obtain ⟨k, _, hdec, hle⟩ := decodeUtf8Ignore_take_encodeUtf8 s n
  rw [hdec]
  exact hle

lemma utf8ByteLen_replicate (n : Nat) (c : Char) :
    utf8ByteLen (List.replicate n c) = n * (encodeChar c).length := by
  induction n with
  | zero => simp [utf8ByteLen, encodeUtf8]
  | succ n ih =>
    rw [List.replicate_succ, utf8ByteLen_cons, ih]
    ring

lemma notice_bytes : utf8ByteLen ("... [truncated]".toList) = 15 := by decide
lemma template_bytes :
    utf8ByteLen
      ("\nMessage has been truncated, please check: \x7bgsutil_uri\x7d for full log message".toList)
      = 76 := by decide
lemma refpre_bytes :
    utf8ByteLen ("\nMessage has been truncated, please check: ".toList) = 43 := by decide
lemma refsuf_bytes : utf8ByteLen (" for full log message".toList) = 21 := by decide
lemma placeholder_len : ("\x7bgsutil_uri\x7d".toList).length = 12 := by decide

/-- The fixed text `google_cloud_log_truncate` appends after the kept
message prefix: the truncation notice, plus the URI reference text when a
truthy URI is present. -/
def truncation_suffix (gsutil_uri : Option (List Char)) : List Char :=
  if pyTruthy gsutil_uri then
    "... [truncated]".toList ++ "\nMessage has been truncated, please check: ".toList
      ++ gsutil_uri.getD [] ++ " for full log message".toList
  else
    "... [truncated]".toList

/-- The byte budget `max_message_length` computed inside
`google_cloud_log_truncate`. -/
def truncBudget (gsutil_uri : Option (List Char)) : Int :=
  (LOGGING_MAX_SIZE : Int) - (utf8ByteLen ("... [truncated]".toList) : Int)
    - ((utf8ByteLen
          ("\nMessage has been truncated, please check: \x7bgsutil_uri\x7d for full log message".toList)
        - ("\x7bgsutil_uri\x7d".toList).length
        + (if pyTruthy gsutil_uri then utf8ByteLen (gsutil_uri.getD []) else 0) : Nat) : Int)

lemma google_cloud_log_truncate_eq (msg : List Char) (uri : Option (List Char)) :
    google_cloud_log_truncate msg uri
      = decodeUtf8Ignore
          ((encodeUtf8 msg).take (pyStop (encodeUtf8 msg).length (truncBudget uri)))
        ++ truncation_suffix uri := by
  by_cases hp : pyTruthy uri = true <;>
    simp [google_cloud_log_truncate, truncation_suffix, truncBudget, pySliceTo, hp,
      List.append_assoc]

/-- Shared shape fact: the truncator's output is a whole-character prefix of
the message followed by the fixed suffix. -/
lemma truncate_shape_aux (msg : List Char) (uri : Option (List Char)) :
    ∃ k, k ≤ msg.length
      ∧ google_cloud_log_truncate msg uri = List.take k msg ++ truncation_suffix uri := by
  obtain ⟨k, hk, hdec, _⟩ :=
    decodeUtf8Ignore_take_encodeUtf8 msg (pyStop (encodeUtf8 msg).length (truncBudget uri))
  exact ⟨k, hk, by rw [google_cloud_log_truncate_eq, hdec]⟩

/-- Shared bound fact: whenever the URI reference text fits in the limit
(byte length of the URI at most `261041 = 255*1024 - 79`), the truncator's
output is within the limit. -/
lemma truncate_le_aux (msg : List Char) (uri : Option (List Char))
    (h : utf8ByteLen (uri.getD []) ≤ 261041) :
    utf8ByteLen (google_cloud_log_truncate msg uri) ≤ LOGGING_MAX_SIZE := by
  rw [google_cloud_log_truncate_eq, utf8ByteLen_append]
  have hb := utf8ByteLen_decode_take msg (pyStop (encodeUtf8 msg).length (truncBudget uri))
  by_cases hp : pyTruthy uri = true
  · have hs : utf8ByteLen (truncation_suffix uri) = 79 + utf8ByteLen (uri.getD []) := by
      simp only [truncation_suffix, hp, if_true, utf8ByteLen_append, notice_bytes,
        refpre_bytes, refsuf_bytes]
      omega
    have hstop : pyStop (encodeUtf8 msg).length (truncBudget uri)
        + utf8ByteLen (uri.getD []) ≤ 261041 := by
      simp only [truncBudget, pyStop, notice_bytes, template_bytes, placeholder_len, hp,
        if_true, LOGGING_MAX_SIZE]
      split <;> omega
    simp only [LOGGING_MAX_SIZE]
    omega
  · have hs : utf8ByteLen (truncation_suffix uri) = 15 := by
      simp only [truncation_suffix, hp, if_false, Bool.false_eq_true]
      decide
    have hstop : pyStop (encodeUtf8 msg).length (truncBudget uri) ≤ 261041 := by
      simp only [truncBudget, pyStop, notice_bytes, template_bytes, placeholder_len, hp,
        if_false, Bool.false_eq_true, LOGGING_MAX_SIZE]
      split <;> omega
    simp only [LOGGING_MAX_SIZE]
    omega

/-! ## The claims -/

/-- C1, as stated, is false for `CustomCloudLoggingHandler.truncate_log_message`:
that truncator budgets in *characters* (`len`/slicing on `str`), so a message
of multi-byte characters overflows the byte limit.  Concretely, a message of
`255*1024` euro signs (3 UTF-8 bytes each) with a 12-character URI yields an
output of `783222` bytes, far above `255*1024 = 261120`. -/
theorem truncate_log_message_multibyte_exceeds_limit :
    MAX_LOG_SIZE
      < utf8ByteLen (truncate_log_message (List.replicate 261120 '€') ("gs://b/l.log".toList)) := by
  simp only [truncate_log_message, pySliceTo, utf8ByteLen_append, List.length_replicate,
    List.take_replicate, utf8ByteLen_replicate]
  decide

/-- C1 (amended): the byte-budgeted truncator `SuperLogs.google_cloud_log_truncate`
emits at most `255*1024` bytes for every message (multi-byte characters
included) and every reference URI whose fixed reference text fits within the
limit — i.e. URI byte length at most `261041 = 255*1024 - 79`.  (For a URI
longer than that the appended reference text alone exceeds the limit, and
the character-budgeted `truncate_log_message` violates the bound for
multi-byte messages; see the counterexample.) -/
theorem google_cloud_log_truncate_byte_limit (msg : List Char) (uri : Option (List Char))
    (h : utf8ByteLen (uri.getD []) ≤ 261041) :
    utf8ByteLen (google_cloud_log_truncate msg uri) ≤ LOGGING_MAX_SIZE :=
  truncate_le_aux msg uri h

theorem google_cloud_log_truncate_byte_limit_witness :
    utf8ByteLen ((some ("gs://bucket/logs/1.log".toList) : Option (List Char)).getD []) ≤ 261041
    ∧ utf8ByteLen (google_cloud_log_truncate ("hello wörld".toList)
        (some ("gs://bucket/logs/1.log".toList))) ≤ LOGGING_MAX_SIZE :=
  ⟨by decide, google_cloud_log_truncate_byte_limit _ _ (by decide)⟩

/-- C2: for every message and every cut point the byte-length budget
produces (`pyStop` of the possibly negative `max_message_length`), the kept
part of `google_cloud_log_truncate`'s output is a whole-character prefix
(`List.take k`) of the original message: no multi-byte encoded character is
ever split, and the `errors="ignore"` decode never raises — the incomplete
trailing unit is dropped. -/
theorem google_cloud_log_truncate_never_splits (msg : List Char) (uri : Option (List Char)) :
    ∃ k, k ≤ msg.length
      ∧ google_cloud_log_truncate msg uri = List.take k msg ++ truncation_suffix uri :=
  truncate_shape_aux msg uri

/-- C3: an oversized entry whose upload fails (`save_large_log_to_gcs`
catches the storage exception and returns `None`) is emitted as a truncated
prefix followed by the truncation notice only — no URI reference text — and
stays within the size limit; the model of the sink is total, mirroring that
no exception escapes the logging call. -/
theorem google_cloud_log_sink_upload_failure (msg bucket : List Char) (ts : Nat)
    (i t sp pid tid : List Char) (e : String)
    (h : LOGGING_MAX_SIZE < utf8ByteLen msg) :
    ∃ k, k ≤ msg.length
      ∧ google_cloud_log_sink msg bucket ts i t sp pid tid (Except.error e)
          = List.take k msg ++ "... [truncated]".toList
      ∧ utf8ByteLen (google_cloud_log_sink msg bucket ts i t sp pid tid (Except.error e))
          ≤ LOGGING_MAX_SIZE := by
  have hsink : google_cloud_log_sink msg bucket ts i t sp pid tid (Except.error e)
      = google_cloud_log_truncate msg none := by
    simp [google_cloud_log_sink, save_large_log_to_gcs, h]
  have hsuf : truncation_suffix none = "... [truncated]".toList := by
    simp [truncation_suffix, pyTruthy]
  obtain ⟨k, hk, heq⟩ := truncate_shape_aux msg none
  refine ⟨k, hk, ?_, ?_⟩
  · rw [hsink, heq, hsuf]
  · rw [hsink]
    exact truncate_le_aux msg none (by decide)

theorem google_cloud_log_sink_upload_failure_witness :
    LOGGING_MAX_SIZE < utf8ByteLen (List.replicate 261121 'a')
    ∧ ∃ k, k ≤ (List.replicate 261121 'a').length
      ∧ google_cloud_log_sink (List.replicate 261121 'a') ("b".toList) 0
          ("-".toList) ("-".toList) ("-".toList) ("1".toList) ("2".toList)
          (Except.error ("storage down"))
          = List.take k (List.replicate 261121 'a') ++ "... [truncated]".toList
      ∧ utf8ByteLen (google_cloud_log_sink (List.replicate 261121 'a') ("b".toList) 0
          ("-".toList) ("-".toList) ("-".toList) ("1".toList) ("2".toList)
          (Except.error ("storage down")))
          ≤ LOGGING_MAX_SIZE := by
  have hp : LOGGING_MAX_SIZE < utf8ByteLen (List.replicate 261121 'a') := by
    rw [utf8ByteLen_replicate]
    decide
  exact ⟨hp, google_cloud_log_sink_upload_failure _ _ _ _ _ _ _ _ _ hp⟩

/-- C4, as stated, is false for `generate_blob_name`: `filter(bool, parts)`
drops only *empty* strings, so a field equal to the sentinel `"-"` is
embedded literally in the key instead of being omitted. -/
theorem generate_blob_name_embeds_placeholder :
    generate_blob_name 0 none (some ['-']) none = "logs/0_-.log".toList
    ∧ generate_blob_name 0 none (some ['-']) none ≠ "logs/0.log".toList :=
  ⟨by decide, by decide⟩

/-- C4 (amended): `generate_blob_name` produces
`logs/<timestamp>[_<instance_id>][_<trace_id>][_<span_id>].log` where
*absent or empty* fields are omitted (a `"-"` field is embedded literally —
see the counterexample); the `superlogs` variant does omit `"-"`-valued
identifier fields but always embeds the process and thread ids in the key. -/
theorem blob_name_field_handling (ts : Nat) (t pid tid : List Char) (ht : t ≠ []) :
    generate_blob_name ts none none none
        = "logs/".toList ++ Nat.toDigits 10 ts ++ ".log".toList
    ∧ generate_blob_name ts none (some t) none
        = "logs/".toList ++ Nat.toDigits 10 ts ++ ('_' :: t) ++ ".log".toList
    ∧ superlogs_blob_name ts ['-'] ['-'] ['-'] pid tid
        = "logs/".toList ++ Nat.toDigits 10 ts ++ ('_' :: pid) ++ ('_' :: tid)
            ++ ".log".toList := by
  refine ⟨?_, ?_, ?_⟩
  · rw [generate_blob_name_shape]
    simp [optPart]
  · rw [generate_blob_name_shape]
    simp [optPart, List.isEmpty_iff, ht]
  · simp [superlogs_blob_name, List.intercalate, List.intersperse]

theorem blob_name_field_handling_witness :
    (['a', 'b'] : List Char) ≠ []
    ∧ (generate_blob_name 7 none none none
        = "logs/".toList ++ Nat.toDigits 10 7 ++ ".log".toList
    ∧ generate_blob_name 7 none (some ['a', 'b']) none
        = "logs/".toList ++ Nat.toDigits 10 7 ++ ('_' :: ['a', 'b']) ++ ".log".toList
    ∧ superlogs_blob_name 7 ['-'] ['-'] ['-'] ['1'] ['2']
        = "logs/".toList ++ Nat.toDigits 10 7 ++ ('_' :: ['1']) ++ ('_' :: ['2'])
            ++ ".log".toList) :=
  ⟨by decide, blob_name_field_handling 7 ['a', 'b'] ['1'] ['2'] (by decide)⟩

/-- C5, as stated, is false: two invocations of `generate_blob_name` with
the same timestamp and instance id but *different* trace ids can still
collide, because the span id is joined with the same separator — here
`trace="a", span="b_c"` and `trace="a_b", span="c"` give the same key. -/
theorem generate_blob_name_trace_collision :
    generate_blob_name 0 (some ['i']) (some ['a']) (some ['b', '_', 'c'])
        = generate_blob_name 0 (some ['i']) (some ['a', '_', 'b']) (some ['c'])
    ∧ (['a'] : List Char) ≠ ['a', '_', 'b'] :=
  ⟨by decide, by decide⟩

/-- C5 (amended): the blob-key generator is a pure function of
`(timestamp, instance_id, trace_id, span_id)` — the model's determinism is
the first conjunct — and with the *span id also held equal* (not just
timestamp and instance id), differing trace ids always yield different
keys. -/
theorem generate_blob_name_deterministic_and_trace_injective
    (ts : Nat) (i sp t1 t2 : Option (List Char))
    (h : t1.getD [] ≠ t2.getD []) :
    generate_blob_name ts i t1 sp = generate_blob_name ts i t1 sp
    ∧ generate_blob_name ts i t1 sp ≠ generate_blob_name ts i t2 sp := by
  refine ⟨rfl, fun heq => h ?_⟩
  rw [generate_blob_name_shape, generate_blob_name_shape] at heq
  have e1 := List.append_cancel_left heq
  have e2 := List.append_cancel_left e1
  exact optPart_inj (List.append_cancel_right e2)

theorem generate_blob_name_trace_injective_witness :
    ((some ['x'] : Option (List Char)).getD [] ≠ (some ['y'] : Option (List Char)).getD [])
    ∧ (generate_blob_name 3 none (some ['x']) none = generate_blob_name 3 none (some ['x']) none
    ∧ generate_blob_name 3 none (some ['x']) none ≠ generate_blob_name 3 none (some ['y']) none) :=
  ⟨by decide, generate_blob_name_deterministic_and_trace_injective 3 none none
    (some ['x']) (some ['y']) (by decide)⟩

/-- C6: an oversized record with no uploader configured
(`self.async_uploader` is `None`) is emitted unchanged: the `emit` guard
`is_large_log(record) and self.async_uploader` short-circuits and the
formatted message is sent as-is, with no truncation and no upload. -/
theorem emit_passthrough_without_uploader (fmt uri : List Char)
    (h : MAX_LOG_SIZE < utf8ByteLen fmt) :
    emit fmt false uri false false false false = Except.ok (some fmt) := by
  simp [emit]

theorem emit_passthrough_without_uploader_witness :
    MAX_LOG_SIZE < utf8ByteLen (List.replicate 261121 'a')
    ∧ emit (List.replicate 261121 'a') false [] false false false false
        = Except.ok (some (List.replicate 261121 'a')) := by
  have hp : MAX_LOG_SIZE < utf8ByteLen (List.replicate 261121 'a') := by
    rw [utf8ByteLen_replicate]
    decide
  exact ⟨hp, emit_passthrough_without_uploader _ _ hp⟩

/-- C7: an entry whose formatted UTF-8 byte length is at most the limit —
including exactly at the limit — is not "large" (the guard uses strict `>`)
and is emitted unchanged, with no truncation and no upload, whatever the
uploader configuration. -/
theorem size_guard_at_limit_passthrough (fmt : List Char)
    (h : utf8ByteLen fmt ≤ MAX_LOG_SIZE) :
    is_large_log fmt = false
    ∧ ∀ (hasUploader : Bool) (uri : List Char),
        emit fmt hasUploader uri false false false false = Except.ok (some fmt) := by
  have hg : is_large_log fmt = false := by
    simp only [is_large_log, decide_eq_false_iff_not]
    omega
  refine ⟨hg, fun hu uri => ?_⟩
  simp [emit, hg]

theorem size_guard_at_limit_passthrough_witness :
    utf8ByteLen (List.replicate 261120 'a') ≤ MAX_LOG_SIZE
    ∧ (is_large_log (List.replicate 261120 'a') = false
    ∧ ∀ (hasUploader : Bool) (uri : List Char),
        emit (List.replicate 261120 'a') hasUploader uri false false false false
          = Except.ok (some (List.replicate 261120 'a'))) := by
  have hp : utf8ByteLen (List.replicate 261120 'a') ≤ MAX_LOG_SIZE := by
    rw [utf8ByteLen_replicate]
    decide
  exact ⟨hp, size_guard_at_limit_passthrough _ hp⟩

/-- C8: whatever faults are injected into the steps of `emit` (attribute
enrichment, upload scheduling, formatting, sending), the call never
propagates an exception: the top-level `try/except Exception` catches
everything, and the worst outcome is a swallowed (unsent) or degraded
entry. -/
theorem emit_never_propagates (fmt : List Char) (hasUploader : Bool) (uri : List Char)
    (fAttrs fUpload fFormat fSend : Bool) (e : String) :
    emit fmt hasUploader uri fAttrs fUpload fFormat fSend ≠ Except.error e := by
  simp only [emit]
  split <;> simp

/-- C9: `AsyncUploader.shutdown` is idempotent — starting from any state
whose event loop is not closed (the class never closes its loop), a first
shutdown succeeds, and a second shutdown on the resulting state succeeds as
well: the storage-client close timeout is caught internally, stopping an
already stopped loop is legal, and joining a finished thread returns. -/
theorem asyncUploader_shutdown_idempotent (s : UploaderState) (r1 r2 : Except String Unit)
    (h : s.loopClosed = false) :
    ∃ s1 s2, AsyncUploader_shutdown s r1 = Except.ok s1
      ∧ AsyncUploader_shutdown s1 r2 = Except.ok s2 := by
  refine ⟨{ s with loopRunning := false, threadAlive := false },
    { s with loopRunning := false, threadAlive := false }, ?_, ?_⟩
  · simp [AsyncUploader_shutdown, h]
  · simp [AsyncUploader_shutdown, h]

theorem asyncUploader_shutdown_idempotent_witness :
    (UploaderState.mk false true true true).loopClosed = false
    ∧ ∃ s1 s2,
        AsyncUploader_shutdown (UploaderState.mk false true true true) (Except.ok ())
          = Except.ok s1
      ∧ AsyncUploader_shutdown s1 (Except.ok ()) = Except.ok s2 :=
  ⟨rfl, asyncUploader_shutdown_idempotent (UploaderState.mk false true true true)
    (Except.ok ()) (Except.ok ()) rfl⟩

/-- C10: constructing `GCPLogger` a second time returns the very same object
as the first construction (`__new__` hands back `cls._instance`), and the
second call's arguments are silently ignored — `__init__` returns early on
`self._initialized` — so every configuration field keeps the value set by
the first construction. -/
theorem gcpLogger_singleton_keeps_first_config (n1 n2 : List Char) (l1 l2 : Int)
    (b1 b2 : Option (List Char)) (d1 d2 e1 e2 : Bool) (id1 id2 : Nat) :
    (gcpLoggerConstruct (gcpLoggerConstruct none id1 n1 l1 b1 d1 e1).2 id2 n2 l2 b2 d2 e2).1
        = (gcpLoggerConstruct none id1 n1 l1 b1 d1 e1).1
    ∧ (gcpLoggerConstruct none id1 n1 l1 b1 d1 e1).1
        = GCPLoggerState.mk id1 n1 l1 b1 d1 e1 true := by
  constructor <;> simp [gcpLoggerConstruct, gcpLoggerNew, gcpLoggerInit]
